import Mathlib

/-!
Shallow embedding of the drag-and-drop module `src/client/src/lib/drag.ts`.

The document is modelled as a partial map from node identifiers to nodes
(attributes, inline style, parent, child list), inline styles as ordered
association lists of property/value pairs, and the module-level variables
of `drag.ts` as a `DragState` record.  The mouse handlers `dragStart`,
`dragEnd`, `dragMove`, the helper `moveElementToCursor`, the public
`configureDragAndDrop` and the `mutationCallback` are translated line by
line into pure state-transition functions.

Browser primitives that the module merely calls are modelled from their
standard semantics: `getBoundingClientRect` is an oracle input of the
pointer-down event, `document.elementFromPoint` is an oracle function
passed to `dragEnd` (its result stands for the hit-test performed while
the dragged element is hidden), `Element.closest` with an attribute
selector is the first node of the inclusive ancestor chain bearing the
attribute (the parent walk is bounded by the number of document nodes,
which on the acyclic trees the browser produces is exactly the walk to
the root), `appendChild` moves a node to the end of the target's child
list, and the `style` setters update a single declaration in place while
`style.cssText = ""` clears the whole inline style.  Consumer callbacks
are identified by numeric ids and every invocation a handler performs is
recorded, in order, in the `calls` component of its result; `new
MutationObserver` invocations are counted by the ghost field
`observersCreated`.  Coordinates and lengths are rationals, so the
halving in the centering formula is exact.  `event.preventDefault()` only
touches the event object, not module state, and is not modelled.
-/

namespace Chesster

/-- Identifier of a document node. -/
abbrev ElemId := Nat

/-- An inline-style value: a pixel length produced from a number by the
template `${n}px`, or a literal string such as `"absolute"`. -/
inductive StyleVal where
  | px : ℚ → StyleVal
  | lit : String → StyleVal
  deriving DecidableEq, Repr

/-- A document node: whether it is an HTMLElement (mutation records may
also list text nodes), its attributes, its inline style declarations in
order, its parent and its children in document order. -/
structure Node where
  isElem : Bool
  attrs : List String
  style : List (String × StyleVal)
  parent : Option ElemId
  children : List ElemId
  deriving DecidableEq, Repr

/-- The document: the node ids in document order, and the node data. -/
structure Dom where
  ids : List ElemId
  nodes : ElemId → Option Node

/-- Look a node up in the document. -/
def getNode (d : Dom) (i : ElemId) : Option Node :=
  d.nodes i

/-- Rewrite every node of the document pointwise. -/
def mapNodes (d : Dom) (g : ElemId → Node → Node) : Dom :=
  { d with nodes := fun i => (d.nodes i).map (g i) }

/-- Update one declaration of an inline style in place, appending it if
it is not present yet (the CSSOM setter semantics). -/
def setProp : List (String × StyleVal) → String → StyleVal → List (String × StyleVal)
  | [], k, v => [(k, v)]
  | p :: rest, k, v => if p.1 = k then (k, v) :: rest else p :: setProp rest k v

/-- Read one declaration of an inline style. -/
def lookupProp : List (String × StyleVal) → String → Option StyleVal
  | [], _ => none
  | p :: rest, k => if p.1 = k then some p.2 else lookupProp rest k

/-- `element.style.k = v` on node `i`. -/
def setStyle (d : Dom) (i : ElemId) (k : String) (v : StyleVal) : Dom :=
  mapNodes d (fun j n => if j = i then { n with style := setProp n.style k v } else n)

/-- `element.style.cssText = ""` on node `i`: the whole inline style goes. -/
def clearStyle (d : Dom) (i : ElemId) : Dom :=
  mapNodes d (fun j n => if j = i then { n with style := [] } else n)

/-- Pointwise effect of `appendChild` on the node `i`: the child `c`
leaves every child list, is appended to the children of `p`, and its
parent pointer moves to `p`. -/
def appendChildNode (p c : ElemId) (i : ElemId) (n : Node) : Node :=
  let n1 := { n with children := n.children.filter (fun x => x != c) }
  let n2 := if i = p then { n1 with children := n1.children ++ [c] } else n1
  if i = c then { n2 with parent := some p } else n2

/-- `parent.appendChild(child)`: the child leaves every child list it was
in and becomes the last child of `p`; its parent pointer moves to `p`. -/
def appendChild (d : Dom) (p c : ElemId) : Dom :=
  mapNodes d (appendChildNode p c)

/-- Value of one inline-style declaration of node `i`. -/
def getStyle (d : Dom) (i : ElemId) (k : String) : Option StyleVal :=
  match getNode d i with
  | some n => lookupProp n.style k
  | none => none

/-- The whole inline style of node `i`. -/
def inlineStyle (d : Dom) (i : ElemId) : Option (List (String × StyleVal)) :=
  (getNode d i).map Node.style

/-- `hasAttribute` on node `i`. -/
def hasAttr (d : Dom) (i : ElemId) (a : String) : Bool :=
  match getNode d i with
  | some n => n.attrs.contains a
  | none => false

/-- `instanceof HTMLElement` for node `i`. -/
def isElemNode (d : Dom) (i : ElemId) : Bool :=
  match getNode d i with
  | some n => n.isElem
  | none => false

/-- Parent of node `i`. -/
def parentOf (d : Dom) (i : ElemId) : Option ElemId :=
  match getNode d i with
  | some n => n.parent
  | none => none

/-- Last child of node `i`. -/
def lastChild (d : Dom) (i : ElemId) : Option ElemId :=
  match getNode d i with
  | some n => n.children.getLast?
  | none => none

/-- Fuelled walk of the inclusive ancestor chain looking for attribute
`a`; the fuel only serves termination and is instantiated with a bound
that any chain of a finite acyclic document satisfies. -/
def closestGo (d : Dom) (a : String) : Nat → ElemId → Option ElemId
  | 0, _ => none
  | fuel + 1, i =>
    if hasAttr d i a then some i
    else
      match parentOf d i with
      | some p => closestGo d a fuel p
      | none => none

/-- `element.closest("[a]")`: nearest inclusive ancestor bearing `a`. -/
def closest (d : Dom) (i : ElemId) (a : String) : Option ElemId :=
  closestGo d a (d.ids.length + 1) i

/-- The attribute name a nullable module variable contributes to a
selector or to `hasAttribute`: JavaScript coerces `null` to `"null"`. -/
def attrName : Option String → String
  | some a => a
  | none => "null"

/-- A mouse position (`clientX`/`clientY`). -/
structure Position where
  x : ℚ
  y : ℚ
  deriving DecidableEq, Repr

/-- The part of a `DOMRect` the module uses. -/
structure Rect where
  width : ℚ
  height : ℚ
  deriving DecidableEq, Repr

/-- A mouse event: pointer coordinates, the innermost element the event
was dispatched to (`target`), and the element whose listener is running
(`currentTarget`). -/
structure MouseEvent where
  clientX : ℚ
  clientY : ℚ
  target : ElemId
  currentTarget : ElemId
  deriving DecidableEq, Repr

/-- One observable call a handler makes out of the module: a consumer
callback (identified by the numeric id the configuration stored) or the
`console.warn` diagnostic. -/
inductive CallbackCall where
  | dragStartCb : Nat → ElemId → CallbackCall
  | dragMoveCb : Nat → ElemId → CallbackCall
  | dragEndCb : Nat → ElemId → ElemId → CallbackCall
  | warn : String → CallbackCall
  deriving DecidableEq, Repr

/-- The module-level variables of `drag.ts` (lines 26-36).  Callbacks are
nullable function references modelled by ids; `observersCreated` is a
ghost counter of `new MutationObserver` invocations; `listeners` is the
ghost log of `addEventListener` registrations `(element, event name)`. -/
structure DragState where
  observer : Option Nat
  dragElement : Option ElemId
  dragElementRect : Option Rect
  dragMoveCallback : Option Nat
  dragStartCallback : Option Nat
  dragEndCallback : Option Nat
  dropzoneAttribute : Option String
  draggableAttribute : Option String
  startingMousePosition : Option Position
  isMouseDown : Bool
  isDragging : Bool
  observersCreated : Nat
  listeners : List (ElemId × String)
  deriving DecidableEq, Repr

/-- The initial values of the module variables. -/
def initialState : DragState :=
  { observer := none
    dragElement := none
    dragElementRect := none
    dragMoveCallback := none
    dragStartCallback := none
    dragEndCallback := none
    dropzoneAttribute := none
    draggableAttribute := none
    startingMousePosition := none
    isMouseDown := false
    isDragging := false
    observersCreated := 0
    listeners := [] }

/-- `Partial<DragOptions>`: each field may be absent (`none`), or present
with the supplied value.  A present callback may itself be null (`some
none`); a present attribute may be the empty string, which is falsy. -/
structure DragOptions where
  draggableAttribute : Option String
  dropzoneAttribute : Option String
  dragMoveCallback : Option (Option Nat)
  dragStartCallback : Option (Option Nat)
  dragEndCallback : Option (Option Nat)
  deriving DecidableEq, Repr

/-- Result of running one handler: the module state, the document, and
the external calls made, in order. -/
structure StepResult where
  state : DragState
  dom : Dom
  calls : List CallbackCall

/-- The three listener registrations `addEventListeners` performs on one
element (lines 94-96). -/
def listenerTriple (el : ElemId) : List (ElemId × String) :=
  [(el, "mousedown"), (el, "mouseup"), (el, "mousemove")]

/-- `addEventListeners` (lines 93-97): registers the three mouse
listeners on `element`. -/
def addEventListeners (s : DragState) (el : ElemId) : DragState :=
  { s with listeners := s.listeners ++ listenerTriple el }

/-- `document.querySelectorAll("[a]")`: the elements bearing attribute
`a`, in document order. -/
def matchedElements (d : Dom) (a : String) : List ElemId :=
  d.ids.filter (fun i => isElemNode d i && hasAttr d i a)

/-- The five truthiness-guarded assignments of `configureDragAndDrop`
(lines 39-53): a field overwrites the module variable only when the
supplied value is truthy (a function for the callbacks, a non-empty
string for the attribute names). -/
def mergeOptions (s : DragState) (o : DragOptions) : DragState :=
  let s1 :=
    match o.dragMoveCallback with
    | some (some f) => { s with dragMoveCallback := some f }
    | _ => s
  let s2 :=
    match o.dragStartCallback with
    | some (some f) => { s1 with dragStartCallback := some f }
    | _ => s1
  let s3 :=
    match o.dragEndCallback with
    | some (some f) => { s2 with dragEndCallback := some f }
    | _ => s2
  let s4 :=
    match o.dropzoneAttribute with
    | some v => if v = "" then s3 else { s3 with dropzoneAttribute := some v }
    | none => s3
  match o.draggableAttribute with
  | some v => if v = "" then s4 else { s4 with draggableAttribute := some v }
  | none => s4

/-- `configureDragAndDrop` (lines 38-74): merge the truthy options, query
the draggable elements and attach the listeners to each (warning when
none matched), then construct a fresh `MutationObserver` and observe the
body with it. -/
def configureDragAndDrop (s : DragState) (d : Dom) (o : DragOptions) :
    DragState × List CallbackCall :=
  let s5 := mergeOptions s o
  let elements := matchedElements d (attrName s5.draggableAttribute)
  let calls :=
    if elements.isEmpty then [CallbackCall.warn (attrName s5.draggableAttribute)] else []
  let s6 := elements.foldl addEventListeners s5
  let s7 := { s6 with
    observer := some s6.observersCreated
    observersCreated := s6.observersCreated + 1 }
  (s7, calls)

/-- A mutation record as delivered to the observer: the list of nodes
added at top level by one change (descendants of an added subtree are
not listed, per the platform's `MutationRecord.addedNodes` semantics). -/
structure MutationRecord where
  addedNodes : List ElemId
  deriving DecidableEq, Repr

/-- The per-added-node body of the `mutationCallback` loops (lines
82-88): attach the listeners when the node is an element bearing the
draggable marker. -/
def stepAdd (d : Dom) (a : DragState) (n : ElemId) : DragState :=
  if isElemNode d n && hasAttr d n (attrName a.draggableAttribute) then
    addEventListeners a n
  else a

/-- `mutationCallback` (lines 76-91): for every record, check each added
node and attach the listeners to the matching elements. -/
def mutationCallback (s : DragState) (d : Dom) (records : List MutationRecord) :
    DragState :=
  records.foldl (fun acc r => r.addedNodes.foldl (stepAdd d) acc) s

/-- `moveElementToCursor` (lines 161-170): place the element's top-left
at the pointer minus half the captured rectangle's extent. -/
def moveElementToCursor (d : Dom) (element : ElemId) (rect : Rect)
    (mouseEvent : MouseEvent) : Dom :=
  let x := mouseEvent.clientX - rect.width / 2
  let y := mouseEvent.clientY - rect.height / 2
  let d1 := setStyle d element "top" (StyleVal.px y)
  setStyle d1 element "left" (StyleVal.px x)

/-- `dragStart` (lines 99-113): reset the flags, record the listener's
element (`event.currentTarget`) and its measured rectangle, fire the
start callback, pin the width and height, record the start position,
center the element under the pointer and switch it to absolute
positioning.  The measured `getBoundingClientRect()` result is the
`rect` oracle input. -/
def dragStart (s : DragState) (d : Dom) (e : MouseEvent) (rect : Rect) : StepResult :=
  let s1 := { s with
    isDragging := false
    isMouseDown := true
    dragElement := some e.currentTarget
    dragElementRect := some rect }
  let calls :=
    match s1.dragStartCallback with
    | some f => [CallbackCall.dragStartCb f e.currentTarget]
    | none => []
  let d1 := setStyle d e.currentTarget "width" (StyleVal.px rect.width)
  let d2 := setStyle d1 e.currentTarget "height" (StyleVal.px rect.height)
  let s2 := { s1 with startingMousePosition := some ⟨e.clientX, e.clientY⟩ }
  let d3 := moveElementToCursor d2 e.currentTarget rect e
  ⟨s2, setStyle d3 e.currentTarget "position" (StyleVal.lit "absolute"), calls⟩

/-- `dragEnd` (lines 115-145): drop the pressed flag; with no subject,
stop there.  Otherwise hide the subject, hit-test the point (the
`hitTest` oracle stands for `document.elementFromPoint` with the subject
hidden), restore its display, and when the hit has an inclusive ancestor
bearing the dropzone attribute, append the subject to that ancestor and
fire the end callback; finally wipe the subject's inline style and clear
the session fields. -/
def dragEnd (s : DragState) (d : Dom) (e : MouseEvent)
    (hitTest : ℚ → ℚ → Option ElemId) : StepResult :=
  let s1 := { s with isMouseDown := false }
  match s1.dragElement with
  | none => ⟨s1, d, []⟩
  | some el =>
    let d1 := setStyle d el "display" (StyleVal.lit "none")
    let hit := hitTest e.clientX e.clientY
    let d2 := setStyle d1 el "display" (StyleVal.lit "visible")
    let dropRes :=
      match hit with
      | none => (d2, ([] : List CallbackCall))
      | some h =>
        match closest d2 h (attrName s1.dropzoneAttribute) with
        | none => (d2, [])
        | some dz =>
          (appendChild d2 dz el,
            match s1.dragEndCallback with
            | some f => [CallbackCall.dragEndCb f el dz]
            | none => [])
    ⟨{ s1 with
        dragElement := none
        dragElementRect := none
        startingMousePosition := none },
      clearStyle dropRes.1 el, dropRes.2⟩

/-- `dragMove` (lines 147-159): only when a subject, a captured
rectangle and the pressed flag are all present does the handler mark the
drag as moved, re-center the element with the captured rectangle and
fire the move callback. -/
def dragMove (s : DragState) (d : Dom) (e : MouseEvent) : StepResult :=
  match s.dragElement, s.dragElementRect with
  | some el, some rect =>
    if s.isMouseDown then
      let s1 := { s with isDragging := true }
      let calls :=
        match s1.dragMoveCallback with
        | some f => [CallbackCall.dragMoveCb f el]
        | none => []
      ⟨s1, moveElementToCursor d el rect e, calls⟩
    else ⟨s, d, []⟩
  | _, _ => ⟨s, d, []⟩

/-! ### Basic facts about the document operations -/

theorem getNode_mapNodes (d : Dom) (g : ElemId → Node → Node) (j : ElemId) :
    getNode (mapNodes d g) j = (getNode d j).map (g j) := rfl

theorem lookupProp_setProp_same (l : List (String × StyleVal)) (k : String)
    (v : StyleVal) : lookupProp (setProp l k v) k = some v := by
  induction l with
  | nil => simp [setProp, lookupProp]
  | cons p rest ih =>
    by_cases h : p.1 = k
    · simp [setProp, lookupProp, h]
    · simp [setProp, lookupProp, h, ih]

theorem lookupProp_setProp_ne (l : List (String × StyleVal)) (k k2 : String)
    (v : StyleVal) (h : k2 ≠ k) :
    lookupProp (setProp l k v) k2 = lookupProp l k2 := by
  induction l with
  | nil => simp [setProp, lookupProp, Ne.symm h]
  | cons p rest ih =>
    by_cases hp : p.1 = k
    · simp [setProp, lookupProp, hp, Ne.symm h]
    · simp [setProp, lookupProp, hp, ih]

theorem getStyle_setStyle_same (d : Dom) (i : ElemId) (k : String) (v : StyleVal)
    (h : (getNode d i).isSome = true) :
    getStyle (setStyle d i k v) i k = some v := by
  unfold getStyle setStyle
  rw [getNode_mapNodes]
  cases hn : getNode d i with
  | none => rw [hn] at h; simp at h
  | some n => simp [lookupProp_setProp_same]

theorem getStyle_setStyle_ne_key (d : Dom) (i j : ElemId) (k k2 : String)
    (v : StyleVal) (h : k2 ≠ k) :
    getStyle (setStyle d i k v) j k2 = getStyle d j k2 := by
  unfold getStyle setStyle
  rw [getNode_mapNodes]
  cases hn : getNode d j with
  | none => rfl
  | some n =>
    by_cases hj : j = i
    · simp [hj, lookupProp_setProp_ne _ _ _ _ h]
    · simp [hj]

theorem getStyle_setStyle_ne_elem (d : Dom) (i j : ElemId) (k k2 : String)
    (v : StyleVal) (h : j ≠ i) :
    getStyle (setStyle d i k v) j k2 = getStyle d j k2 := by
  unfold getStyle setStyle
  rw [getNode_mapNodes]
  cases hn : getNode d j with
  | none => rfl
  | some n => simp [h]

theorem isSome_setStyle (d : Dom) (i j : ElemId) (k : String) (v : StyleVal) :
    (getNode (setStyle d i k v) j).isSome = (getNode d j).isSome := by
  unfold setStyle
  rw [getNode_mapNodes]
  cases getNode d j <;> rfl

theorem hasAttr_setStyle (d : Dom) (i j : ElemId) (k : String) (v : StyleVal)
    (a : String) : hasAttr (setStyle d i k v) j a = hasAttr d j a := by
  unfold hasAttr setStyle
  rw [getNode_mapNodes]
  cases getNode d j with
  | none => rfl
  | some n => by_cases hj : j = i <;> simp [hj]

theorem parentOf_setStyle (d : Dom) (i j : ElemId) (k : String) (v : StyleVal) :
    parentOf (setStyle d i k v) j = parentOf d j := by
  unfold parentOf setStyle
  rw [getNode_mapNodes]
  cases getNode d j with
  | none => rfl
  | some n => by_cases hj : j = i <;> simp [hj]

theorem lastChild_setStyle (d : Dom) (i j : ElemId) (k : String) (v : StyleVal) :
    lastChild (setStyle d i k v) j = lastChild d j := by
  unfold lastChild setStyle
  rw [getNode_mapNodes]
  cases getNode d j with
  | none => rfl
  | some n => by_cases hj : j = i <;> simp [hj]

theorem ids_setStyle (d : Dom) (i : ElemId) (k : String) (v : StyleVal) :
    (setStyle d i k v).ids = d.ids := rfl

theorem closestGo_setStyle (d : Dom) (i : ElemId) (k : String) (v : StyleVal)
    (a : String) : ∀ fuel j,
    closestGo (setStyle d i k v) a fuel j = closestGo d a fuel j := by
  intro fuel
  induction fuel with
  | zero => intro j; rfl
  | succ n ih =>
    intro j
    simp only [closestGo, hasAttr_setStyle, parentOf_setStyle]
    cases hasAttr d j a <;> cases parentOf d j <;> simp [ih]

theorem closest_setStyle (d : Dom) (i : ElemId) (k : String) (v : StyleVal)
    (j : ElemId) (a : String) :
    closest (setStyle d i k v) j a = closest d j a := by
  unfold closest
  rw [ids_setStyle, closestGo_setStyle]

theorem closestGo_hasAttr (d : Dom) (a : String) :
    ∀ fuel j dz, closestGo d a fuel j = some dz → hasAttr d dz a = true := by
  intro fuel
  induction fuel with
  | zero => intro j dz h; simp [closestGo] at h
  | succ n ih =>
    intro j dz h
    simp only [closestGo] at h
    by_cases hA : hasAttr d j a
    · simp [hA] at h; rw [← h]; exact hA
    · simp [hA] at h
      cases hp : parentOf d j with
      | none => rw [hp] at h; simp at h
      | some p => rw [hp] at h; exact ih p dz h

theorem closest_hasAttr (d : Dom) (j : ElemId) (a : String) (dz : ElemId)
    (h : closest d j a = some dz) : hasAttr d dz a = true :=
  closestGo_hasAttr d a _ j dz h

theorem hasAttr_isSome (d : Dom) (j : ElemId) (a : String)
    (h : hasAttr d j a = true) : (getNode d j).isSome = true := by
  unfold hasAttr at h
  cases hg : getNode d j with
  | none => rw [hg] at h; simp at h
  | some n => rfl

theorem appendChildNode_style (p c i : ElemId) (n : Node) :
    (appendChildNode p c i n).style = n.style := by
  unfold appendChildNode
  split <;> split <;> rfl

theorem appendChildNode_parent_ne (p c i : ElemId) (n : Node) (h : i ≠ c) :
    (appendChildNode p c i n).parent = n.parent := by
  unfold appendChildNode
  rw [if_neg h]
  split <;> rfl

theorem appendChildNode_parent_child (p c : ElemId) (n : Node) :
    (appendChildNode p c c n).parent = some p := by
  unfold appendChildNode
  by_cases h : c = p <;> simp [h]

theorem appendChildNode_children_parent (p c : ElemId) (n : Node) :
    (appendChildNode p c p n).children
      = n.children.filter (fun x => x != c) ++ [c] := by
  unfold appendChildNode
  by_cases h : p = c <;> simp [h]

theorem parentOf_appendChild_child (d : Dom) (p c : ElemId)
    (h : (getNode d c).isSome = true) :
    parentOf (appendChild d p c) c = some p := by
  unfold parentOf appendChild
  rw [getNode_mapNodes]
  cases hn : getNode d c with
  | none => rw [hn] at h; simp at h
  | some n => simp [appendChildNode_parent_child]

theorem parentOf_appendChild_ne (d : Dom) (p c j : ElemId) (h : j ≠ c) :
    parentOf (appendChild d p c) j = parentOf d j := by
  unfold parentOf appendChild
  rw [getNode_mapNodes]
  cases hn : getNode d j with
  | none => rfl
  | some n => simp [appendChildNode_parent_ne _ _ _ _ h]

theorem lastChild_appendChild (d : Dom) (p c : ElemId)
    (h : (getNode d p).isSome = true) :
    lastChild (appendChild d p c) p = some c := by
  unfold lastChild appendChild
  rw [getNode_mapNodes]
  cases hn : getNode d p with
  | none => rw [hn] at h; simp at h
  | some n => simp [appendChildNode_children_parent, List.getLast?_append_cons]

theorem getStyle_appendChild (d : Dom) (p c j : ElemId) (k : String) :
    getStyle (appendChild d p c) j k = getStyle d j k := by
  unfold getStyle appendChild
  rw [getNode_mapNodes]
  cases hn : getNode d j with
  | none => rfl
  | some n => simp [appendChildNode_style]

theorem isSome_appendChild (d : Dom) (p c j : ElemId) :
    (getNode (appendChild d p c) j).isSome = (getNode d j).isSome := by
  unfold appendChild
  rw [getNode_mapNodes]
  cases getNode d j <;> rfl

theorem parentOf_clearStyle (d : Dom) (i j : ElemId) :
    parentOf (clearStyle d i) j = parentOf d j := by
  unfold parentOf clearStyle
  rw [getNode_mapNodes]
  cases getNode d j with
  | none => rfl
  | some n => by_cases hj : j = i <;> simp [hj]

theorem lastChild_clearStyle (d : Dom) (i j : ElemId) :
    lastChild (clearStyle d i) j = lastChild d j := by
  unfold lastChild clearStyle
  rw [getNode_mapNodes]
  cases getNode d j with
  | none => rfl
  | some n => by_cases hj : j = i <;> simp [hj]

theorem getStyle_clearStyle_ne (d : Dom) (i j : ElemId) (k : String)
    (h : j ≠ i) : getStyle (clearStyle d i) j k = getStyle d j k := by
  unfold getStyle clearStyle
  rw [getNode_mapNodes]
  cases getNode d j with
  | none => rfl
  | some n => simp [h]

theorem inlineStyle_clearStyle (d : Dom) (i : ElemId)
    (h : (getNode d i).isSome = true) :
    inlineStyle (clearStyle d i) i = some [] := by
  unfold inlineStyle clearStyle
  rw [getNode_mapNodes]
  cases hn : getNode d i with
  | none => rw [hn] at h; simp at h
  | some n => simp

theorem isSome_clearStyle (d : Dom) (i j : ElemId) :
    (getNode (clearStyle d i) j).isSome = (getNode d j).isSome := by
  unfold clearStyle
  rw [getNode_mapNodes]
  cases getNode d j <;> rfl

/-! ### Facts about `moveElementToCursor` -/

theorem getStyle_moveElementToCursor_left (d : Dom) (el : ElemId) (rect : Rect)
    (e : MouseEvent) (h : (getNode d el).isSome = true) :
    getStyle (moveElementToCursor d el rect e) el "left"
      = some (StyleVal.px (e.clientX - rect.width / 2)) := by
  unfold moveElementToCursor
  exact getStyle_setStyle_same _ _ _ _ (by rw [isSome_setStyle]; exact h)

theorem getStyle_moveElementToCursor_top (d : Dom) (el : ElemId) (rect : Rect)
    (e : MouseEvent) (h : (getNode d el).isSome = true) :
    getStyle (moveElementToCursor d el rect e) el "top"
      = some (StyleVal.px (e.clientY - rect.height / 2)) := by
  unfold moveElementToCursor
  rw [getStyle_setStyle_ne_key _ _ _ _ _ _ (by decide)]
  exact getStyle_setStyle_same _ _ _ _ h

theorem getStyle_moveElementToCursor_ne (d : Dom) (el j : ElemId) (rect : Rect)
    (e : MouseEvent) (k : String) (h1 : k ≠ "top") (h2 : k ≠ "left") :
    getStyle (moveElementToCursor d el rect e) j k = getStyle d j k := by
  unfold moveElementToCursor
  rw [getStyle_setStyle_ne_key _ _ _ _ _ _ h2, getStyle_setStyle_ne_key _ _ _ _ _ _ h1]

theorem isSome_moveElementToCursor (d : Dom) (el j : ElemId) (rect : Rect)
    (e : MouseEvent) :
    (getNode (moveElementToCursor d el rect e) j).isSome = (getNode d j).isSome := by
  unfold moveElementToCursor
  rw [isSome_setStyle, isSome_setStyle]

theorem getStyle_moveElementToCursor_ne_elem (d : Dom) (el j : ElemId) (rect : Rect)
    (e : MouseEvent) (k : String) (h : j ≠ el) :
    getStyle (moveElementToCursor d el rect e) j k = getStyle d j k := by
  unfold moveElementToCursor
  rw [getStyle_setStyle_ne_elem _ _ _ _ _ _ h, getStyle_setStyle_ne_elem _ _ _ _ _ _ h]

/-! ### Structural facts about the module operations -/

theorem foldl_addEventListeners_fields (l : List ElemId) (s : DragState) :
    (l.foldl addEventListeners s).dragMoveCallback = s.dragMoveCallback ∧
    (l.foldl addEventListeners s).dragStartCallback = s.dragStartCallback ∧
    (l.foldl addEventListeners s).dragEndCallback = s.dragEndCallback ∧
    (l.foldl addEventListeners s).dropzoneAttribute = s.dropzoneAttribute ∧
    (l.foldl addEventListeners s).draggableAttribute = s.draggableAttribute ∧
    (l.foldl addEventListeners s).observersCreated = s.observersCreated := by
  induction l generalizing s with
  | nil => exact ⟨rfl, rfl, rfl, rfl, rfl, rfl⟩
  | cons a l ih =>
    rw [List.foldl_cons]
    exact ih (addEventListeners s a)

theorem mergeOptions_dragMoveCallback (s : DragState) (o : DragOptions) :
    (mergeOptions s o).dragMoveCallback
      = match o.dragMoveCallback with
        | some (some f) => some f
        | _ => s.dragMoveCallback := by
  unfold mergeOptions
  repeat' split
  all_goals rfl

theorem mergeOptions_dragStartCallback (s : DragState) (o : DragOptions) :
    (mergeOptions s o).dragStartCallback
      = match o.dragStartCallback with
        | some (some f) => some f
        | _ => s.dragStartCallback := by
  unfold mergeOptions
  repeat' split
  all_goals rfl

theorem mergeOptions_dragEndCallback (s : DragState) (o : DragOptions) :
    (mergeOptions s o).dragEndCallback
      = match o.dragEndCallback with
        | some (some f) => some f
        | _ => s.dragEndCallback := by
  unfold mergeOptions
  repeat' split
  all_goals rfl

theorem mergeOptions_dropzoneAttribute (s : DragState) (o : DragOptions) :
    (mergeOptions s o).dropzoneAttribute
      = match o.dropzoneAttribute with
        | some v => if v = "" then s.dropzoneAttribute else some v
        | none => s.dropzoneAttribute := by
  unfold mergeOptions
  repeat' split
  all_goals rfl

theorem mergeOptions_draggableAttribute (s : DragState) (o : DragOptions) :
    (mergeOptions s o).draggableAttribute
      = match o.draggableAttribute with
        | some v => if v = "" then s.draggableAttribute else some v
        | none => s.draggableAttribute := by
  unfold mergeOptions
  repeat' split
  all_goals rfl

theorem mergeOptions_observersCreated (s : DragState) (o : DragOptions) :
    (mergeOptions s o).observersCreated = s.observersCreated := by
  unfold mergeOptions
  repeat' split
  all_goals rfl

theorem configure_fst_fields (s : DragState) (d : Dom) (o : DragOptions) :
    (configureDragAndDrop s d o).1.dragMoveCallback = (mergeOptions s o).dragMoveCallback ∧
    (configureDragAndDrop s d o).1.dragStartCallback = (mergeOptions s o).dragStartCallback ∧
    (configureDragAndDrop s d o).1.dragEndCallback = (mergeOptions s o).dragEndCallback ∧
    (configureDragAndDrop s d o).1.dropzoneAttribute = (mergeOptions s o).dropzoneAttribute ∧
    (configureDragAndDrop s d o).1.draggableAttribute = (mergeOptions s o).draggableAttribute ∧
    (configureDragAndDrop s d o).1.observersCreated = (mergeOptions s o).observersCreated + 1 := by
  obtain ⟨h1, h2, h3, h4, h5, h6⟩ := foldl_addEventListeners_fields
    (matchedElements d (attrName (mergeOptions s o).draggableAttribute)) (mergeOptions s o)
  refine ⟨h1, h2, h3, h4, h5, ?_⟩
  have hc : (configureDragAndDrop s d o).1.observersCreated
      = ((matchedElements d (attrName (mergeOptions s o).draggableAttribute)).foldl
          addEventListeners (mergeOptions s o)).observersCreated + 1 := rfl
  rw [hc, h6]

theorem configure_observersCreated (s : DragState) (d : Dom) (o : DragOptions) :
    (configureDragAndDrop s d o).1.observersCreated = s.observersCreated + 1 := by
  rw [(configure_fst_fields s d o).2.2.2.2.2, mergeOptions_observersCreated]

theorem stepAdd_draggableAttribute (d : Dom) (a : DragState) (n : ElemId) :
    (stepAdd d a n).draggableAttribute = a.draggableAttribute := by
  unfold stepAdd
  split <;> rfl

theorem foldl_stepAdd (d : Dom) : ∀ (ns : List ElemId) (a : DragState),
    (ns.foldl (stepAdd d) a).listeners
      = a.listeners
        ++ (ns.filter (fun n =>
              isElemNode d n && hasAttr d n (attrName a.draggableAttribute))).flatMap
            listenerTriple ∧
    (ns.foldl (stepAdd d) a).draggableAttribute = a.draggableAttribute := by
  intro ns
  induction ns with
  | nil => intro a; exact ⟨by simp, rfl⟩
  | cons n ns ih =>
    intro a
    rw [List.foldl_cons]
    obtain ⟨ihl, iha⟩ := ih (stepAdd d a n)
    refine ⟨?_, by rw [iha, stepAdd_draggableAttribute]⟩
    rw [ihl, stepAdd_draggableAttribute]
    by_cases h : (isElemNode d n && hasAttr d n (attrName a.draggableAttribute)) = true
    · rw [show stepAdd d a n = addEventListeners a n from by
        unfold stepAdd; rw [if_pos h]]
      simp [addEventListeners, List.filter_cons, h, List.flatMap_cons]
    · rw [show stepAdd d a n = a from by unfold stepAdd; rw [if_neg h]]
      simp [List.filter_cons, h]

theorem mutationCallback_fold (d : Dom) :
    ∀ (records : List MutationRecord) (s : DragState),
    (mutationCallback s d records).listeners
      = s.listeners
        ++ (records.flatMap (fun r =>
              r.addedNodes.filter (fun n =>
                isElemNode d n && hasAttr d n (attrName s.draggableAttribute)))).flatMap
            listenerTriple ∧
    (mutationCallback s d records).draggableAttribute = s.draggableAttribute := by
  intro records
  induction records with
  | nil => intro s; exact ⟨by simp [mutationCallback], rfl⟩
  | cons r rs ih =>
    intro s
    unfold mutationCallback at ih ⊢
    rw [List.foldl_cons]
    obtain ⟨hl, ha⟩ := ih (r.addedNodes.foldl (stepAdd d) s)
    obtain ⟨fl, fa⟩ := foldl_stepAdd d r.addedNodes s
    refine ⟨?_, by rw [ha, fa]⟩
    rw [hl, fl, fa]
    simp [List.flatMap_cons, List.append_assoc]

theorem dragMove_id_of_inactive (s : DragState) (d : Dom) (e : MouseEvent)
    (h : s.dragElement = none ∨ s.dragElementRect = none ∨ s.isMouseDown = false) :
    dragMove s d e = ⟨s, d, []⟩ := by
  unfold dragMove
  cases hde : s.dragElement with
  | none => rfl
  | some el =>
    cases hdr : s.dragElementRect with
    | none => rfl
    | some r =>
      rcases h with h | h | h
      · rw [hde] at h; exact absurd h (by simp)
      · rw [hdr] at h; exact absurd h (by simp)
      · simp [h]

theorem dragStart_dom (s : DragState) (d : Dom) (e : MouseEvent) (rect : Rect) :
    (dragStart s d e rect).dom
      = setStyle
          (moveElementToCursor
            (setStyle (setStyle d e.currentTarget "width" (StyleVal.px rect.width))
              e.currentTarget "height" (StyleVal.px rect.height))
            e.currentTarget rect e)
          e.currentTarget "position" (StyleVal.lit "absolute") := rfl

theorem dragStart_state (s : DragState) (d : Dom) (e : MouseEvent) (rect : Rect) :
    (dragStart s d e rect).state
      = { s with
          isDragging := false
          isMouseDown := true
          dragElement := some e.currentTarget
          dragElementRect := some rect
          startingMousePosition := some ⟨e.clientX, e.clientY⟩ } := rfl

theorem dragStart_calls (s : DragState) (d : Dom) (e : MouseEvent) (rect : Rect) :
    (dragStart s d e rect).calls
      = match s.dragStartCallback with
        | some f => [CallbackCall.dragStartCb f e.currentTarget]
        | none => [] := rfl

theorem dragMove_active (s : DragState) (d : Dom) (e : MouseEvent) (el : ElemId)
    (rect : Rect) (h1 : s.dragElement = some el) (h2 : s.dragElementRect = some rect)
    (h3 : s.isMouseDown = true) :
    dragMove s d e
      = ⟨{ s with isDragging := true }, moveElementToCursor d el rect e,
          match s.dragMoveCallback with
          | some f => [CallbackCall.dragMoveCb f el]
          | none => []⟩ := by
  simp only [dragMove, h1, h2, h3, if_true]

theorem dragEnd_eq_of_none_hit (s : DragState) (d : Dom) (e : MouseEvent)
    (hitTest : ℚ → ℚ → Option ElemId) (el : ElemId)
    (hel : s.dragElement = some el)
    (hh : hitTest e.clientX e.clientY = none) :
    dragEnd s d e hitTest
      = ⟨{ s with
            isMouseDown := false
            dragElement := none
            dragElementRect := none
            startingMousePosition := none },
          clearStyle
            (setStyle (setStyle d el "display" (StyleVal.lit "none")) el "display"
              (StyleVal.lit "visible")) el,
          []⟩ := by
  simp only [dragEnd, hel, hh]

theorem dragEnd_eq_of_no_dropzone (s : DragState) (d : Dom) (e : MouseEvent)
    (hitTest : ℚ → ℚ → Option ElemId) (el h2 : ElemId)
    (hel : s.dragElement = some el)
    (hh : hitTest e.clientX e.clientY = some h2)
    (hc : closest d h2 (attrName s.dropzoneAttribute) = none) :
    dragEnd s d e hitTest
      = ⟨{ s with
            isMouseDown := false
            dragElement := none
            dragElementRect := none
            startingMousePosition := none },
          clearStyle
            (setStyle (setStyle d el "display" (StyleVal.lit "none")) el "display"
              (StyleVal.lit "visible")) el,
          []⟩ := by
  have hc2 : closest
      (setStyle (setStyle d el "display" (StyleVal.lit "none")) el "display"
        (StyleVal.lit "visible")) h2 (attrName s.dropzoneAttribute) = none := by
    rw [closest_setStyle, closest_setStyle]; exact hc
  simp only [dragEnd, hel, hh, hc2]

theorem dragEnd_eq_of_dropzone (s : DragState) (d : Dom) (e : MouseEvent)
    (hitTest : ℚ → ℚ → Option ElemId) (el h2 dz : ElemId)
    (hel : s.dragElement = some el)
    (hh : hitTest e.clientX e.clientY = some h2)
    (hc : closest d h2 (attrName s.dropzoneAttribute) = some dz) :
    dragEnd s d e hitTest
      = ⟨{ s with
            isMouseDown := false
            dragElement := none
            dragElementRect := none
            startingMousePosition := none },
          clearStyle
            (appendChild
              (setStyle (setStyle d el "display" (StyleVal.lit "none")) el "display"
                (StyleVal.lit "visible")) dz el) el,
          match s.dragEndCallback with
          | some f => [CallbackCall.dragEndCb f el dz]
          | none => []⟩ := by
  have hc2 : closest
      (setStyle (setStyle d el "display" (StyleVal.lit "none")) el "display"
        (StyleVal.lit "visible")) h2 (attrName s.dropzoneAttribute) = some dz := by
    rw [closest_setStyle, closest_setStyle]; exact hc
  simp only [dragEnd, hel, hh, hc2]

/-! ### Concrete fixtures used by the witnesses -/

/-- Draggable element: marked `data-drag`, has a consumer-set inline
color, child of the root. -/
def dragNode : Node :=
  { isElem := true
    attrs := ["data-drag"]
    style := [("color", StyleVal.lit "red")]
    parent := some 1
    children := [] }

/-- Root container. -/
def rootNode : Node :=
  { isElem := true, attrs := [], style := [], parent := none, children := [0, 2] }

/-- Dropzone container: marked `data-drop`. -/
def dropNode : Node :=
  { isElem := true
    attrs := ["data-drop"]
    style := []
    parent := some 1
    children := [3] }

/-- Unmarked element nested inside the dropzone. -/
def innerNode : Node :=
  { isElem := true, attrs := [], style := [], parent := some 2, children := [] }

/-- A four-node document: root 1 holding draggable 0 and dropzone 2,
which holds the unmarked 3. -/
def demoDom : Dom :=
  { ids := [1, 0, 2, 3]
    nodes := fun i =>
      if i = 0 then some dragNode
      else if i = 1 then some rootNode
      else if i = 2 then some dropNode
      else if i = 3 then some innerNode
      else none }

/-- Module state in the middle of a drag of element 0, with all three
callbacks configured. -/
def demoState : DragState :=
  { initialState with
      dragElement := some 0
      dragElementRect := some ⟨50, 50⟩
      dragMoveCallback := some 5
      dragStartCallback := some 6
      dragEndCallback := some 7
      dropzoneAttribute := some "data-drop"
      draggableAttribute := some "data-drag"
      isMouseDown := true }

/-- A pointer event at (200, 200) dispatched to element 0. -/
def demoEvent : MouseEvent :=
  { clientX := 200, clientY := 200, target := 0, currentTarget := 0 }

/-- The rectangle measured for element 0 at pointer-down. -/
def demoRect : Rect := ⟨50, 50⟩

/-- Hit-test oracle finding the nested element 3. -/
def demoHit : ℚ → ℚ → Option ElemId := fun _ _ => some 3

/-- Hit-test oracle finding nothing. -/
def noHit : ℚ → ℚ → Option ElemId := fun _ _ => none

/-! ### The claims -/

/-- C1: On pointer-down and on every pointer-move while pressed, the
dragged element's inline left/top are set to
(pointerX − rectWidth/2, pointerY − rectHeight/2), where the rectangle
is the one captured at pointer-down: `dragStart` stores the measured
rectangle and applies the formula, and `dragMove` applies the same
formula with the stored rectangle and leaves it unchanged (never
re-measuring). -/
theorem placement_formula (s : DragState) (d : Dom) (e : MouseEvent) (rect : Rect)
    (hex : (getNode d e.currentTarget).isSome = true) :
    getStyle (dragStart s d e rect).dom e.currentTarget "left"
      = some (StyleVal.px (e.clientX - rect.width / 2)) ∧
    getStyle (dragStart s d e rect).dom e.currentTarget "top"
      = some (StyleVal.px (e.clientY - rect.height / 2)) ∧
    (dragStart s d e rect).state.dragElementRect = some rect ∧
    (∀ el r, s.dragElement = some el → s.dragElementRect = some r →
      s.isMouseDown = true → (getNode d el).isSome = true →
      getStyle (dragMove s d e).dom el "left"
          = some (StyleVal.px (e.clientX - r.width / 2)) ∧
      getStyle (dragMove s d e).dom el "top"
          = some (StyleVal.px (e.clientY - r.height / 2)) ∧
      (dragMove s d e).state.dragElementRect = some r) := by
  refine ⟨?_, ?_, rfl, ?_⟩
  · rw [dragStart_dom, getStyle_setStyle_ne_key _ _ _ "position" "left" _ (by decide)]
    exact getStyle_moveElementToCursor_left _ _ _ _
      (by rw [isSome_setStyle, isSome_setStyle]; exact hex)
  · rw [dragStart_dom, getStyle_setStyle_ne_key _ _ _ "position" "top" _ (by decide)]
    exact getStyle_moveElementToCursor_top _ _ _ _
      (by rw [isSome_setStyle, isSome_setStyle]; exact hex)
  · intro el r h1 h2 h3 h4
    rw [dragMove_active s d e el r h1 h2 h3]
    exact ⟨getStyle_moveElementToCursor_left _ _ _ _ h4,
      getStyle_moveElementToCursor_top _ _ _ _ h4, h2⟩

/-- Witness for C1: dragging the 50×50 element 0 with the pointer at
(200, 200) puts its top-left at (175, 175), at drag start and on move. -/
theorem placement_formula_witness :
    getStyle (dragStart demoState demoDom demoEvent demoRect).dom 0 "left"
        = some (StyleVal.px 175) ∧
    getStyle (dragMove demoState demoDom demoEvent).dom 0 "top"
        = some (StyleVal.px 175) := by
  obtain ⟨hleft, htop, hrect, hmove⟩ :=
    placement_formula demoState demoDom demoEvent demoRect (by decide)
  obtain ⟨ml, mt, mr⟩ := hmove 0 demoRect rfl rfl rfl (by decide)
  exact ⟨hleft.trans (by norm_num [demoEvent, demoRect]),
    mt.trans (by norm_num [demoEvent, demoRect])⟩

/-- C3: Every pointer-up handled with an active drag subject strips the
subject's inline style entirely (so in particular the overrides applied
at drag start) and clears the session: subject, captured rectangle and
starting pointer position are all reset, and the pressed flag drops. -/
theorem dragEnd_cleanup (s : DragState) (d : Dom) (e : MouseEvent)
    (hitTest : ℚ → ℚ → Option ElemId) (el : ElemId)
    (hel : s.dragElement = some el) (hex : (getNode d el).isSome = true) :
    (dragEnd s d e hitTest).state.dragElement = none ∧
    (dragEnd s d e hitTest).state.dragElementRect = none ∧
    (dragEnd s d e hitTest).state.startingMousePosition = none ∧
    (dragEnd s d e hitTest).state.isMouseDown = false ∧
    inlineStyle (dragEnd s d e hitTest).dom el = some [] := by
  cases hh : hitTest e.clientX e.clientY with
  | none =>
    rw [dragEnd_eq_of_none_hit s d e hitTest el hel hh]
    exact ⟨rfl, rfl, rfl, rfl, inlineStyle_clearStyle _ _
      (by rw [isSome_setStyle, isSome_setStyle]; exact hex)⟩
  | some h2 =>
    cases hc : closest d h2 (attrName s.dropzoneAttribute) with
    | none =>
      rw [dragEnd_eq_of_no_dropzone s d e hitTest el h2 hel hh hc]
      exact ⟨rfl, rfl, rfl, rfl, inlineStyle_clearStyle _ _
        (by rw [isSome_setStyle, isSome_setStyle]; exact hex)⟩
    | some dz =>
      rw [dragEnd_eq_of_dropzone s d e hitTest el h2 dz hel hh hc]
      exact ⟨rfl, rfl, rfl, rfl, inlineStyle_clearStyle _ _
        (by rw [isSome_appendChild, isSome_setStyle, isSome_setStyle]; exact hex)⟩

/-- Witness for C3: pointer-up over the nested element clears the
session and empties element 0's inline style. -/
theorem dragEnd_cleanup_witness :
    (dragEnd demoState demoDom demoEvent demoHit).state.dragElement = none ∧
    (dragEnd demoState demoDom demoEvent demoHit).state.dragElementRect = none ∧
    (dragEnd demoState demoDom demoEvent demoHit).state.startingMousePosition = none ∧
    inlineStyle (dragEnd demoState demoDom demoEvent demoHit).dom 0 = some [] := by
  obtain ⟨h1, h2, h3, h4, h5⟩ :=
    dragEnd_cleanup demoState demoDom demoEvent demoHit 0 rfl (by decide)
  exact ⟨h1, h2, h3, h5⟩

/-- C5: The pointer-up handler never touches the has-moved flag
(`isDragging` leaves `dragEnd` exactly as it entered), the flag is reset
to false only by pointer-down, and any pointer-move handled while
pressed with an active subject sets it to true — so after a moved drag
ends it still reads true until the next pointer-down. -/
theorem isDragging_lifecycle (s : DragState) (d : Dom) (e : MouseEvent)
    (rect : Rect) (hitTest : ℚ → ℚ → Option ElemId) :
    (dragEnd s d e hitTest).state.isDragging = s.isDragging ∧
    (dragStart s d e rect).state.isDragging = false ∧
    (∀ el r, s.dragElement = some el → s.dragElementRect = some r →
      s.isMouseDown = true → (dragMove s d e).state.isDragging = true) := by
  refine ⟨?_, rfl, ?_⟩
  · simp only [dragEnd]
    cases hde : s.dragElement with
    | none => rfl
    | some el => rfl
  · intro el r h1 h2 h3
    rw [dragMove_active s d e el r h1 h2 h3]

/-- Witness for C5: after a move (flag true) the pointer-up keeps the
flag true. -/
theorem isDragging_lifecycle_witness :
    (dragMove demoState demoDom demoEvent).state.isDragging = true ∧
    (dragEnd { demoState with isDragging := true } demoDom demoEvent
        demoHit).state.isDragging = true := by
  obtain ⟨e1, s1, m1⟩ :=
    isDragging_lifecycle demoState demoDom demoEvent demoRect demoHit
  obtain ⟨e2, s2, m2⟩ :=
    isDragging_lifecycle { demoState with isDragging := true } demoDom demoEvent
      demoRect demoHit
  exact ⟨m1 0 demoRect rfl rfl rfl, e2⟩

/-- C9: A pointer-move handled while the pointer is not pressed, or with
no drag subject, or with no captured rectangle, does nothing at all: the
state, document and call log are untouched. -/
theorem dragMove_noop (s : DragState) (d : Dom) (e : MouseEvent)
    (h : s.dragElement = none ∨ s.dragElementRect = none ∨ s.isMouseDown = false) :
    dragMove s d e = ⟨s, d, []⟩ :=
  dragMove_id_of_inactive s d e h

/-- Witness for C9: a move in the initial (unpressed) state is a no-op. -/
theorem dragMove_noop_witness :
    dragMove initialState demoDom demoEvent = ⟨initialState, demoDom, []⟩ :=
  dragMove_noop initialState demoDom demoEvent (Or.inl rfl)

/-- C10: Pointer-down records `event.currentTarget` — the element the
listeners were attached to — as the drag subject and passes it to the
start callback; the event's innermost `target` plays no role at all. -/
theorem dragStart_currentTarget (s : DragState) (d : Dom) (e : MouseEvent)
    (rect : Rect) :
    (dragStart s d e rect).state.dragElement = some e.currentTarget ∧
    (∀ t, dragStart s d { e with target := t } rect = dragStart s d e rect) ∧
    (∀ f, s.dragStartCallback = some f →
      (dragStart s d e rect).calls = [CallbackCall.dragStartCb f e.currentTarget]) := by
  refine ⟨rfl, ?_, ?_⟩
  · intro t
    rfl
  · intro f hf
    rw [dragStart_calls, hf]

/-- Witness for C10: pressing with listeners attached to element 0
starts a drag of element 0 and notifies callback 6 with it. -/
theorem dragStart_currentTarget_witness :
    (dragStart demoState demoDom demoEvent demoRect).state.dragElement = some 0 ∧
    (dragStart demoState demoDom demoEvent demoRect).calls
      = [CallbackCall.dragStartCb 6 0] := by
  obtain ⟨h1, h2, h3⟩ := dragStart_currentTarget demoState demoDom demoEvent demoRect
  exact ⟨h1, h3 6 rfl⟩

/-- C2: On pointer-up with an active subject (and an end callback
configured), the drop callback fires exactly when the hit-test finds an
element whose nearest inclusive ancestor bears the dropzone attribute;
in that case the subject is reparented to be the last child of that
ancestor — not of the nested hit element — and the callback receives the
subject and the ancestor.  With no hit, or no dropzone ancestor, the
subject's parent is untouched and no callback fires. -/
theorem dragEnd_drop_behavior (s : DragState) (d : Dom) (e : MouseEvent)
    (hitTest : ℚ → ℚ → Option ElemId) (el : ElemId) (f : Nat)
    (hel : s.dragElement = some el) (hcb : s.dragEndCallback = some f)
    (hex : (getNode d el).isSome = true) :
    (hitTest e.clientX e.clientY = none →
      parentOf (dragEnd s d e hitTest).dom el = parentOf d el ∧
      (dragEnd s d e hitTest).calls = []) ∧
    (∀ h2, hitTest e.clientX e.clientY = some h2 →
      closest d h2 (attrName s.dropzoneAttribute) = none →
      parentOf (dragEnd s d e hitTest).dom el = parentOf d el ∧
      (dragEnd s d e hitTest).calls = []) ∧
    (∀ h2 dz, hitTest e.clientX e.clientY = some h2 →
      closest d h2 (attrName s.dropzoneAttribute) = some dz →
      parentOf (dragEnd s d e hitTest).dom el = some dz ∧
      lastChild (dragEnd s d e hitTest).dom dz = some el ∧
      (dragEnd s d e hitTest).calls = [CallbackCall.dragEndCb f el dz]) := by
  refine ⟨?_, ?_, ?_⟩
  · intro hh
    simp only [dragEnd_eq_of_none_hit s d e hitTest el hel hh]
    refine ⟨?_, trivial⟩
    rw [parentOf_clearStyle, parentOf_setStyle, parentOf_setStyle]
  · intro h2 hh hc
    simp only [dragEnd_eq_of_no_dropzone s d e hitTest el h2 hel hh hc]
    refine ⟨?_, trivial⟩
    rw [parentOf_clearStyle, parentOf_setStyle, parentOf_setStyle]
  · intro h2 dz hh hc
    have hdz0 : (getNode d dz).isSome = true :=
      hasAttr_isSome d dz _ (closest_hasAttr d h2 _ dz hc)
    simp only [dragEnd_eq_of_dropzone s d e hitTest el h2 dz hel hh hc]
    refine ⟨?_, ?_, ?_⟩
    · rw [parentOf_clearStyle]
      exact parentOf_appendChild_child _ _ _
        (by rw [isSome_setStyle, isSome_setStyle]; exact hex)
    · rw [lastChild_clearStyle]
      exact lastChild_appendChild _ _ _
        (by rw [isSome_setStyle, isSome_setStyle]; exact hdz0)
    · simp only [hcb]

/-- Witness for C2: dropping element 0 over the nested element 3 puts it
as last child of the dropzone 2 and calls callback 7 with (0, 2); a drop
with no hit leaves the parent at the root 1 and calls nothing. -/
theorem dragEnd_drop_behavior_witness :
    parentOf (dragEnd demoState demoDom demoEvent demoHit).dom 0 = some 2 ∧
    lastChild (dragEnd demoState demoDom demoEvent demoHit).dom 2 = some 0 ∧
    (dragEnd demoState demoDom demoEvent demoHit).calls
      = [CallbackCall.dragEndCb 7 0 2] ∧
    parentOf (dragEnd demoState demoDom demoEvent noHit).dom 0 = parentOf demoDom 0 ∧
    (dragEnd demoState demoDom demoEvent noHit).calls = [] := by
  obtain ⟨hn1, hn2, hdrop⟩ :=
    dragEnd_drop_behavior demoState demoDom demoEvent demoHit 0 7 rfl rfl (by decide)
  obtain ⟨hm1, hm2, hm3⟩ :=
    dragEnd_drop_behavior demoState demoDom demoEvent noHit 0 7 rfl rfl (by decide)
  obtain ⟨p1, p2, p3⟩ := hdrop 3 2 rfl (by decide)
  obtain ⟨q1, q2⟩ := hm1 rfl
  exact ⟨p1, p2, p3, q1, q2⟩

/-- C4: `configureDragAndDrop` overwrites exactly the configuration
fields supplied with a truthy value (a function for the three callbacks,
a non-empty string for the two attribute names); a field absent from the
options, or supplied falsy, keeps exactly its previous value. -/
theorem configure_merge (s : DragState) (d : Dom) (o : DragOptions) :
    (∀ f, o.dragMoveCallback = some (some f) →
      (configureDragAndDrop s d o).1.dragMoveCallback = some f) ∧
    (o.dragMoveCallback = none ∨ o.dragMoveCallback = some none →
      (configureDragAndDrop s d o).1.dragMoveCallback = s.dragMoveCallback) ∧
    (∀ f, o.dragStartCallback = some (some f) →
      (configureDragAndDrop s d o).1.dragStartCallback = some f) ∧
    (o.dragStartCallback = none ∨ o.dragStartCallback = some none →
      (configureDragAndDrop s d o).1.dragStartCallback = s.dragStartCallback) ∧
    (∀ f, o.dragEndCallback = some (some f) →
      (configureDragAndDrop s d o).1.dragEndCallback = some f) ∧
    (o.dragEndCallback = none ∨ o.dragEndCallback = some none →
      (configureDragAndDrop s d o).1.dragEndCallback = s.dragEndCallback) ∧
    (∀ v, o.dropzoneAttribute = some v → v ≠ "" →
      (configureDragAndDrop s d o).1.dropzoneAttribute = some v) ∧
    (o.dropzoneAttribute = none ∨ o.dropzoneAttribute = some "" →
      (configureDragAndDrop s d o).1.dropzoneAttribute = s.dropzoneAttribute) ∧
    (∀ v, o.draggableAttribute = some v → v ≠ "" →
      (configureDragAndDrop s d o).1.draggableAttribute = some v) ∧
    (o.draggableAttribute = none ∨ o.draggableAttribute = some "" →
      (configureDragAndDrop s d o).1.draggableAttribute = s.draggableAttribute) := by
  obtain ⟨c1, c2, c3, c4, c5, c6⟩ := configure_fst_fields s d o
  refine ⟨?_, ?_, ?_, ?_, ?_, ?_, ?_, ?_, ?_, ?_⟩
  · intro f hf; rw [c1, mergeOptions_dragMoveCallback, hf]
  · intro hf
    rw [c1, mergeOptions_dragMoveCallback]
    rcases hf with hf | hf <;> rw [hf]
  · intro f hf; rw [c2, mergeOptions_dragStartCallback, hf]
  · intro hf
    rw [c2, mergeOptions_dragStartCallback]
    rcases hf with hf | hf <;> rw [hf]
  · intro f hf; rw [c3, mergeOptions_dragEndCallback, hf]
  · intro hf
    rw [c3, mergeOptions_dragEndCallback]
    rcases hf with hf | hf <;> rw [hf]
  · intro v hv hne
    rw [c4, mergeOptions_dropzoneAttribute, hv]
    simp [hne]
  · intro hf
    rw [c4, mergeOptions_dropzoneAttribute]
    rcases hf with hf | hf
    · rw [hf]
    · rw [hf]; simp
  · intro v hv hne
    rw [c5, mergeOptions_draggableAttribute, hv]
    simp [hne]
  · intro hf
    rw [c5, mergeOptions_draggableAttribute]
    rcases hf with hf | hf
    · rw [hf]
    · rw [hf]; simp

/-- Mixed options for the C4 witness: one truthy attribute, one empty
(falsy) attribute, one explicitly null callback, one absent callback,
one truthy callback. -/
def demoOptions : DragOptions :=
  { draggableAttribute := some "data-drag"
    dropzoneAttribute := some ""
    dragMoveCallback := some none
    dragStartCallback := none
    dragEndCallback := some (some 9) }

/-- Witness for C4: only the truthy fields of `demoOptions` overwrite;
the falsy and absent ones keep the previous values. -/
theorem configure_merge_witness :
    (configureDragAndDrop demoState demoDom demoOptions).1.draggableAttribute
        = some "data-drag" ∧
    (configureDragAndDrop demoState demoDom demoOptions).1.dropzoneAttribute
        = demoState.dropzoneAttribute ∧
    (configureDragAndDrop demoState demoDom demoOptions).1.dragMoveCallback
        = demoState.dragMoveCallback ∧
    (configureDragAndDrop demoState demoDom demoOptions).1.dragStartCallback
        = demoState.dragStartCallback ∧
    (configureDragAndDrop demoState demoDom demoOptions).1.dragEndCallback
        = some 9 := by
  obtain ⟨m1, m2, s1, s2, e1, e2, z1, z2, g1, g2⟩ :=
    configure_merge demoState demoDom demoOptions
  exact ⟨g1 "data-drag" rfl (by decide), z2 (Or.inr rfl), m2 (Or.inr rfl),
    s2 (Or.inl rfl), e1 9 rfl⟩

/-- C6: The mutation watcher attaches the three mouse listeners to
exactly the nodes listed as top-level added nodes of some record that
are element nodes bearing the draggable marker: the listener log grows
by precisely the triples of the filtered added nodes.  Non-element added
nodes contribute nothing, and elements merely nested inside an added
subtree are not in any record's `addedNodes`, so they are never
attached. -/
theorem mutation_attach_exactly (s : DragState) (d : Dom)
    (records : List MutationRecord) :
    (mutationCallback s d records).listeners
      = s.listeners
        ++ (records.flatMap (fun r =>
              r.addedNodes.filter (fun n =>
                isElemNode d n && hasAttr d n (attrName s.draggableAttribute)))).flatMap
            listenerTriple :=
  (mutationCallback_fold d records s).1

/-- Counterexample for C7: two configuration calls construct two
observers and disconnect neither, so the count of observation
subscriptions ever created is 2, refuting "at most one observation
subscription ever exists" over sequences of configure calls. -/
theorem observer_not_single :
    ¬ ((configureDragAndDrop
          (configureDragAndDrop initialState demoDom
            { draggableAttribute := none
              dropzoneAttribute := none
              dragMoveCallback := none
              dragStartCallback := none
              dragEndCallback := none }).1
          demoDom
          { draggableAttribute := none
            dropzoneAttribute := none
            dragMoveCallback := none
            dragStartCallback := none
            dragEndCallback := none }).1.observersCreated ≤ 1) := by
  decide

/-- C7 as amended: every configuration call constructs exactly one fresh
mutation watcher and subscribes it, and no call ever tears one down, so
after n configure calls n subscriptions have been created (the module
variable referencing only the most recent). -/
theorem observer_created_per_configure (calls : List (Dom × DragOptions)) :
    (calls.foldl (fun s p => (configureDragAndDrop s p.1 p.2).1)
        initialState).observersCreated = calls.length := by
  have key : ∀ (l : List (Dom × DragOptions)) (s : DragState),
      (l.foldl (fun s p => (configureDragAndDrop s p.1 p.2).1) s).observersCreated
        = s.observersCreated + l.length := by
    intro l
    induction l with
    | nil => intro s; simp
    | cons p l ih =>
      intro s
      rw [List.foldl_cons, ih, configure_observersCreated]
      simp only [List.length_cons]
      omega
  rw [key calls initialState]
  simp [initialState]

/-- Counterexample for C8: element 0 carries the consumer-set inline
declaration color:red before the drag; after a full drag (pointer-down
then pointer-up with no hit) the declaration is gone, because pointer-up
clears the whole inline style, refuting "every other inline style
property the element had before the drag is unchanged after the drag
ends". -/
theorem style_wiped_counterexample :
    getStyle demoDom 0 "color" = some (StyleVal.lit "red") ∧
    getStyle (dragEnd (dragStart demoState demoDom demoEvent demoRect).state
        (dragStart demoState demoDom demoEvent demoRect).dom demoEvent noHit).dom
      0 "color" = none := by
  decide

/-- C8 as amended: throughout the drag lifecycle the module modifies
only the top, left, width, height, position and display inline style
properties, and only on the dragged element — pointer-down and every
move leave every (element, property) pair outside that scope untouched,
and pointer-up leaves every element other than the subject untouched —
but at pointer-up the subject's entire inline style is cleared, so
inline properties it had before the drag outside that set are removed
rather than unchanged. -/
theorem style_touch_scope (s : DragState) (d : Dom) (e : MouseEvent) (rect : Rect)
    (hitTest : ℚ → ℚ → Option ElemId) (p : String) (j el : ElemId) :
    (j ≠ e.currentTarget ∨
        (p ≠ "top" ∧ p ≠ "left" ∧ p ≠ "width" ∧ p ≠ "height" ∧
          p ≠ "position" ∧ p ≠ "display") →
      getStyle (dragStart s d e rect).dom j p = getStyle d j p) ∧
    (s.dragElement = some el →
      (j ≠ el ∨
        (p ≠ "top" ∧ p ≠ "left" ∧ p ≠ "width" ∧ p ≠ "height" ∧
          p ≠ "position" ∧ p ≠ "display")) →
      getStyle (dragMove s d e).dom j p = getStyle d j p) ∧
    (s.dragElement = some el → (getNode d el).isSome = true →
      inlineStyle (dragEnd s d e hitTest).dom el = some [] ∧
      (j ≠ el → getStyle (dragEnd s d e hitTest).dom j p = getStyle d j p)) := by
  refine ⟨?_, ?_, ?_⟩
  · intro hg
    rcases hg with hj | ⟨hp1, hp2, hp3, hp4, hp5, hp6⟩
    · rw [dragStart_dom, getStyle_setStyle_ne_elem _ _ _ _ _ _ hj,
        getStyle_moveElementToCursor_ne_elem _ _ _ _ _ _ hj,
        getStyle_setStyle_ne_elem _ _ _ _ _ _ hj,
        getStyle_setStyle_ne_elem _ _ _ _ _ _ hj]
    · rw [dragStart_dom, getStyle_setStyle_ne_key _ _ _ _ _ _ hp5,
        getStyle_moveElementToCursor_ne _ _ _ _ _ _ hp1 hp2,
        getStyle_setStyle_ne_key _ _ _ _ _ _ hp4,
        getStyle_setStyle_ne_key _ _ _ _ _ _ hp3]
  · intro hel hg
    cases hdr : s.dragElementRect with
    | none => rw [dragMove_id_of_inactive s d e (Or.inr (Or.inl hdr))]
    | some r2 =>
      cases hmd : s.isMouseDown with
      | false => rw [dragMove_id_of_inactive s d e (Or.inr (Or.inr hmd))]
      | true =>
        rw [dragMove_active s d e el r2 hel hdr hmd]
        rcases hg with hj | ⟨hp1, hp2, hp3, hp4, hp5, hp6⟩
        · exact getStyle_moveElementToCursor_ne_elem _ _ _ _ _ _ hj
        · exact getStyle_moveElementToCursor_ne _ _ _ _ _ _ hp1 hp2
  · intro hel hex
    cases hh : hitTest e.clientX e.clientY with
    | none =>
      simp only [dragEnd_eq_of_none_hit s d e hitTest el hel hh]
      refine ⟨inlineStyle_clearStyle _ _
        (by rw [isSome_setStyle, isSome_setStyle]; exact hex), ?_⟩
      intro hj
      rw [getStyle_clearStyle_ne _ _ _ _ hj,
        getStyle_setStyle_ne_elem _ _ _ _ _ _ hj,
        getStyle_setStyle_ne_elem _ _ _ _ _ _ hj]
    | some h2 =>
      cases hc : closest d h2 (attrName s.dropzoneAttribute) with
      | none =>
        simp only [dragEnd_eq_of_no_dropzone s d e hitTest el h2 hel hh hc]
        refine ⟨inlineStyle_clearStyle _ _
          (by rw [isSome_setStyle, isSome_setStyle]; exact hex), ?_⟩
        intro hj
        rw [getStyle_clearStyle_ne _ _ _ _ hj,
          getStyle_setStyle_ne_elem _ _ _ _ _ _ hj,
          getStyle_setStyle_ne_elem _ _ _ _ _ _ hj]
      | some dz =>
        simp only [dragEnd_eq_of_dropzone s d e hitTest el h2 dz hel hh hc]
        refine ⟨inlineStyle_clearStyle _ _ ?_, ?_⟩
        · rw [isSome_appendChild, isSome_setStyle, isSome_setStyle]
          exact hex
        · intro hj
          rw [getStyle_clearStyle_ne _ _ _ _ hj, getStyle_appendChild,
            getStyle_setStyle_ne_elem _ _ _ _ _ _ hj,
            getStyle_setStyle_ne_elem _ _ _ _ _ _ hj]

/-- Witness for C8 (amended): pointer-down leaves the top property of
the other element 2 and the color declaration of the subject 0 alone, a
move leaves element 2's left alone, and pointer-up empties the subject's
inline style while leaving element 2's width alone. -/
theorem style_touch_scope_witness :
    getStyle (dragStart demoState demoDom demoEvent demoRect).dom 2 "top"
      = getStyle demoDom 2 "top" ∧
    getStyle (dragStart demoState demoDom demoEvent demoRect).dom 0 "color"
      = getStyle demoDom 0 "color" ∧
    getStyle (dragMove demoState demoDom demoEvent).dom 2 "left"
      = getStyle demoDom 2 "left" ∧
    inlineStyle (dragEnd demoState demoDom demoEvent noHit).dom 0 = some [] ∧
    getStyle (dragEnd demoState demoDom demoEvent noHit).dom 2 "width"
      = getStyle demoDom 2 "width" := by
  obtain ⟨a1, a2, a3⟩ :=
    style_touch_scope demoState demoDom demoEvent demoRect noHit "top" 2 0
  obtain ⟨b1, b2, b3⟩ :=
    style_touch_scope demoState demoDom demoEvent demoRect noHit "color" 0 0
  obtain ⟨c1, c2, c3⟩ :=
    style_touch_scope demoState demoDom demoEvent demoRect noHit "left" 2 0
  obtain ⟨w1, w2, w3⟩ :=
    style_touch_scope demoState demoDom demoEvent demoRect noHit "width" 2 0
  exact ⟨a1 (Or.inl (by decide)), b1 (Or.inr (by decide)),
    c2 rfl (Or.inl (by decide)), (w3 rfl (by decide)).1,
    (w3 rfl (by decide)).2 (by decide)⟩

end Chesster
